import Mathlib

/-!
Verification of the qwak-ai go-sdk token-lifecycle and retry-executor core.

The Go sources are shallowly embedded in Lean:
* `QwakHttp` embeds the retry executor (`DoRequestWithRetry`,
  `RetryPolicy.getBackoffForAttempt`, `RetryPolicy.getMaxAttempts`,
  `executeRequest`, `joinErrors`).  The network is modelled as a function
  from attempt index to the outcome `executeRequest` would observe, and the
  caller context as the point of the run (two observation points per loop
  iteration: the top-of-loop check and the backoff select) from which
  `ctx.Err()` is non-nil.  The run additionally records a trace of the
  network attempts, backoff waits and cancellation aborts it performs.
* `QwakAuth` embeds the authenticator (`getExpiredIn`, `GetToken`,
  `renewToken`'s cache update, `doGetTokenRequest`).  Go `time.Time` is
  modelled as nanoseconds since the epoch, with `Option` capturing the
  distinguished zero value (`IsZero`); `float64` durations do not occur
  there.  JSON decoding of a response body is abstracted as an
  `Option AuthResponse` input.
* `QwakAuth.Coalesce` is a small-step interleaving model of the
  singleflight usage in `renewToken` (key "token-get") and
  `lazyRenewToken` (key "token-lazy-renew", whose body calls `renewToken`).
* Go `float64` in the backoff policy is idealized as `ℚ`; the concrete
  inputs used below (`1`, `3/2`) and exponents are small enough that
  `math.Pow`/`math.Floor` agree with exact rational arithmetic.
-/

namespace QwakHttp

/-- Embedding of `http.RetryPolicy` (retry.go). `float64` is idealized as `ℚ`. -/
structure RetryPolicy where
  MaxAttempts : Int
  IntervalMs : Int
  ExponentialBackoffFactor : ℚ
deriving DecidableEq

/-- Embedding of `RetryPolicy.getBackoffForAttempt`:
clamp the factor to `[1,3]`, take `int(math.Floor(factor^attempt))` and
square it.  `IntervalMs` is not consulted by the source. -/
def RetryPolicy.getBackoffForAttempt (r : RetryPolicy) (attempt : Nat) : Int :=
  let factor := r.ExponentialBackoffFactor
  let factor := if factor < 1 then 1 else factor
  let factor := if factor > 3 then 3 else factor
  let backoffMultiplier : Int := (factor ^ attempt).floor
  backoffMultiplier * backoffMultiplier

/-- Embedding of `RetryPolicy.getMaxAttempts`: clamp `MaxAttempts` to `[1,5]`. -/
def RetryPolicy.getMaxAttempts (r : RetryPolicy) : Int :=
  if r.MaxAttempts > 5 then 5
  else if r.MaxAttempts < 1 then 1
  else r.MaxAttempts

/-- Number of loop iterations `DoRequestWithRetry` allows, as a `Nat`. -/
def RetryPolicy.maxAttemptsNat (r : RetryPolicy) : Nat :=
  r.getMaxAttempts.toNat

/-- Outcome of one `executeRequest` call: either a fully read response
(`ok body status`), or a failure (`failed msg status`: a transport error,
reported with status 0, or a body-read error, reported with the response
status); in both failure cases the returned body is nil. -/
inductive AttemptResult where
  | ok (body : String) (status : Nat)
  | failed (msg : String) (status : Nat)
deriving DecidableEq

/-- Body component of `executeRequest`'s return (nil, i.e. `""`, on failure). -/
def attemptBody : AttemptResult → String
  | .ok b _ => b
  | .failed _ _ => ""

/-- Status component of `executeRequest`'s return. -/
def attemptStatus : AttemptResult → Nat
  | .ok _ s => s
  | .failed _ s => s

/-- Error component of `executeRequest`'s return. -/
def attemptErr : AttemptResult → Option String
  | .ok _ _ => none
  | .failed m _ => some m

/-- The message the loop produces for a server-error status
(`request failed with status code '%d'`). -/
def statusErrMsg (code : Nat) : String :=
  "request failed with status code \x27" ++ toString code ++ "\x27"

/-- The per-attempt failure recorded in `errs` (`Attempt #%d: %v`). -/
def attemptTag (k : Nat) (m : String) : String :=
  "Attempt #" ++ toString k ++ ": " ++ m

/-- The message recorded when an iteration is discarded because the context
is already done (`Attempt #%d discarded: %v`). -/
def discardTag (k : Nat) (m : String) : String :=
  "Attempt #" ++ toString k ++ " discarded: " ++ m

/-- The error string of a cancelled Go context. -/
def ctxErrMsg : String := "context canceled"

/-- `lastErr` after the loop's reclassification step: a transport/read error
stays as is, and an error-free response with status `≥ 500` becomes the
server-error message. -/
def classify (r : AttemptResult) : Option String :=
  match attemptErr r with
  | some m => some m
  | none => if 500 ≤ attemptStatus r then some (statusErrMsg (attemptStatus r)) else none

/-- An attempt outcome the loop treats as a retryable failure. -/
def Retryable (r : AttemptResult) : Prop := classify r ≠ none

instance (r : AttemptResult) : Decidable (Retryable r) := by
  unfold Retryable; infer_instance

/-- The failure message of a retryable outcome. -/
def failMsg (r : AttemptResult) : String :=
  match attemptErr r with
  | some m => m
  | none => statusErrMsg (attemptStatus r)

/-- Events recorded by a run of the retry loop: a network attempt with its
outcome, a backoff wait (with the computed delay in ms and whether the
`select` was cut short by the context), or an abort of an iteration whose
top-of-loop context check already failed. -/
inductive Event where
  | attempt (i : Nat) (r : AttemptResult)
  | backoffWait (i : Nat) (durationMs : Int) (interrupted : Bool)
  | cancelAbort (i : Nat)
deriving DecidableEq

/-- Whether `ctx.Err()` is non-nil at observation point `t` of the run
(`cancelAt = some c` means the context is done from point `c` on). -/
def ctxCancelled (cancelAt : Option Nat) (t : Nat) : Bool :=
  match cancelAt with
  | none => false
  | some c => decide (c ≤ t)

/-- The mutable state of `DoRequestWithRetry`'s loop, plus the trace of
events performed so far. -/
structure LoopState where
  body : String
  lastHttpCode : Nat
  errs : List String
  lastErr : Option String
  trace : List Event
deriving DecidableEq

/-- Loop state on entry to `DoRequestWithRetry`. -/
def initState : LoopState :=
  { body := "", lastHttpCode := 0, errs := [], lastErr := none, trace := [] }

/-- One iteration of the loop body at attempt index `k`; the boolean is
true when the iteration hit the `break` (context already done). -/
def loopIter (net : Nat → AttemptResult) (cancelAt : Option Nat) (policy : RetryPolicy)
    (k : Nat) (s : LoopState) : LoopState × Bool :=
  if ctxCancelled cancelAt (2 * k) then
    ({ s with lastErr := some ctxErrMsg,
              errs := s.errs ++ [discardTag k ctxErrMsg],
              trace := s.trace ++ [Event.cancelAbort k] }, true)
  else
    let r := net k
    let e := classify r
    let s1 : LoopState :=
      { body := attemptBody r, lastHttpCode := attemptStatus r, lastErr := e,
        errs := s.errs, trace := s.trace ++ [Event.attempt k r] }
    match e with
    | none => (s1, false)
    | some m =>
        ({ s1 with
            errs := s1.errs ++ [attemptTag k m],
            trace := s1.trace ++
              [Event.backoffWait k (policy.getBackoffForAttempt k)
                (ctxCancelled cancelAt (2 * k + 1))] }, false)

/-- The loop of `DoRequestWithRetry` from attempt index `k`, with enough
fuel to reach `getMaxAttempts`; the guard mirrors
`retryAttempt < policy.getMaxAttempts() && (retryAttempt == 0 || lastErr != nil)`. -/
def runFrom (net : Nat → AttemptResult) (cancelAt : Option Nat) (policy : RetryPolicy) :
    Nat → Nat → LoopState → LoopState
  | 0, _, s => s
  | fuel + 1, k, s =>
    if k < policy.maxAttemptsNat ∧ (k = 0 ∨ s.lastErr ≠ none) then
      match loopIter net cancelAt policy k s with
      | (s1, true) => s1
      | (s1, false) => runFrom net cancelAt policy fuel (k + 1) s1
    else s

/-- Embedding of `joinErrors` (`all attemptes has been failed:[%s]`,
the typo is the source's). -/
def joinErrors (errs : List String) : String :=
  "all attemptes has been failed:[" ++ String.intercalate ";" errs ++ "]"

/-- Result of `DoRequestWithRetry`: the returned body, status and error,
plus the trace of network attempts and waits the run performed. -/
structure RetryResult where
  body : String
  statusCode : Nat
  error : Option String
  trace : List Event
deriving DecidableEq

/-- Embedding of `DoRequestWithRetry`: run the loop from attempt 0 on the
initial state and wrap a surviving `lastErr` as
`failed to perform reqesut: <joined errors>` (typo is the source's). -/
def DoRequestWithRetry (net : Nat → AttemptResult) (cancelAt : Option Nat)
    (policy : RetryPolicy) : RetryResult :=
  let final := runFrom net cancelAt policy policy.maxAttemptsNat 0 initState
  { body := final.body
    statusCode := final.lastHttpCode
    error :=
      match final.lastErr with
      | some _ => some ("failed to perform reqesut: " ++ joinErrors final.errs)
      | none => none
    trace := final.trace }

/-- Number of network attempts recorded in a trace. -/
def countAttempts (t : List Event) : Nat :=
  (t.filter fun e => match e with | .attempt _ _ => true | _ => false).length

/-- Trace fragment of one retryable-failure iteration: the attempt and the
backoff wait that follows it (uninterrupted). -/
def failBlock (net : Nat → AttemptResult) (policy : RetryPolicy) (j : Nat) : List Event :=
  [Event.attempt j (net j), Event.backoffWait j (policy.getBackoffForAttempt j) false]

/-- Trace wellformedness with respect to the context: every recorded
network attempt started at a point where `ctx.Err()` was still nil, and
every backoff wait's interruption flag reflects the context's state at
that wait. -/
def GoodTrace (cancelAt : Option Nat) (t : List Event) : Prop :=
  (∀ i r, Event.attempt i r ∈ t → ctxCancelled cancelAt (2 * i) = false) ∧
  (∀ i d fl, Event.backoffWait i d fl ∈ t → fl = ctxCancelled cancelAt (2 * i + 1))

/-- Every retryable failure in the trace is followed by its backoff wait
(the loop does not skip the wait, not even on the final attempt). -/
def WaitsAfterFailure (policy : RetryPolicy) (t : List Event) : Prop :=
  ∀ k r, Event.attempt k r ∈ t → Retryable r →
    Event.backoffWait k (policy.getBackoffForAttempt k) false ∈ t

end QwakHttp

namespace QwakAuth

/-- Embedding of `TokenExpirationBuffer = 30 * time.Minute`, in nanoseconds
(Go `time.Duration` units). -/
def TokenExpirationBuffer : Int := 30 * 60 * 1000000000

/-- Embedding of `stalenessTokenPeriod = 2 * time.Hour`, in nanoseconds. -/
def stalenessTokenPeriod : Int := 2 * 60 * 60 * 1000000000

/-- Embedding of `tokenWrapper`: the cached credential.  `expiredAt` is
`none` for Go's zero `time.Time` (never fetched) and `some t` for an
absolute time `t` in nanoseconds since the Unix epoch (every value
produced by `time.Unix` is non-zero, hence `some`). -/
structure TokenWrapper where
  accessToken : String
  expiredAt : Option Int
deriving DecidableEq

/-- Embedding of `getExpiredIn`: zero for the zero time, otherwise
`expiredAt.Sub(now) - TokenExpirationBuffer` clamped below at zero. -/
def getExpiredIn (token : TokenWrapper) (now : Int) : Int :=
  match token.expiredAt with
  | none => 0
  | some e =>
    let nextAuthIn := e - now - TokenExpirationBuffer
    if nextAuthIn < 0 then 0 else nextAuthIn

/-- Embedding of `authResponse`: the decoded JSON body of the
authentication endpoint (`accessToken`, `expiredAt` in epoch seconds). -/
structure AuthResponse where
  AccessToken : String
  ExpiredAt : Int
deriving DecidableEq

/-- Embedding of `time.Unix(sec, 0)` in the nanosecond time scale. -/
def timeUnix (sec : Int) : Int := sec * 1000000000

/-- The credential `renewToken` writes to the cache on success. -/
def renewedWrapper (resp : AuthResponse) : TokenWrapper :=
  { accessToken := resp.AccessToken, expiredAt := some (timeUnix resp.ExpiredAt) }

/-- Embedding of `renewToken`'s effect given the outcome of
`doGetTokenRequest`: on error the cache (first component) is left as it
was and the error is returned; on success the cache is replaced wholesale
by the response-derived credential, which is also returned. -/
def renewToken (st : TokenWrapper) (reqResult : Except String AuthResponse) :
    TokenWrapper × Except String TokenWrapper :=
  match reqResult with
  | .error err => (st, .error err)
  | .ok resp => (renewedWrapper resp, .ok (renewedWrapper resp))

/-- The fixed retry policy `doGetTokenRequest` passes to
`DoRequestWithRetry`: 5 attempts, 200ms, factor 1.5. -/
def authRetryPolicy : QwakHttp.RetryPolicy :=
  { MaxAttempts := 5, IntervalMs := 200, ExponentialBackoffFactor := mkRat 3 2 }

/-- Embedding of `doGetTokenRequest` downstream of the HTTP call:
`(body, statusCode, err)` is what `DoRequestWithRetry` returned and
`decoded` abstracts `json.Unmarshal` on `body` (`none` = malformed). -/
def doGetTokenRequest (body : String) (statusCode : Nat) (err : Option String)
    (decoded : Option AuthResponse) : Except String AuthResponse :=
  match err with
  | some e => .error e
  | none =>
    if statusCode = 401 then
      .error "wrong apiKey, authentication failed with status code 401"
    else if statusCode ≠ 200 then
      .error ("authentication failed. failed with code " ++ toString statusCode ++
        ". response: " ++ body)
    else
      match decoded with
      | none => .error "failed to unmarshal authentication response"
      | some r => .ok r

/-- A renewal network call triggered by `GetToken`: synchronous (expired
path, `renewToken` on the caller's path) or background
(`lazyRenewToken`'s fire-and-forget goroutine). -/
inductive NetworkCall where
  | syncRenew
  | backgroundRenew
deriving DecidableEq

/-- Embedding of `GetToken`: returns the token-or-error result, the cache
after the synchronous part of the call, and the list of renewal network
calls the invocation triggers.  Expired (`expiredIn ≤ 0`): synchronous
renewal via `renewToken` with outcome `reqResult`.  Stale-but-valid
(`0 < expiredIn < stalenessTokenPeriod`): the cached token is returned and
a background renewal is spawned.  Fresh: the cached token is returned with
no I/O. -/
def GetToken (st : TokenWrapper) (now : Int) (reqResult : Except String AuthResponse) :
    Except String String × TokenWrapper × List NetworkCall :=
  let expiredIn := getExpiredIn st now
  if expiredIn ≤ 0 then
    match renewToken st reqResult with
    | (st1, .ok nw) => (.ok nw.accessToken, st1, [NetworkCall.syncRenew])
    | (st1, .error e) => (.error e, st1, [NetworkCall.syncRenew])
  else if expiredIn < stalenessTokenPeriod then
    (.ok st.accessToken, st, [NetworkCall.backgroundRenew])
  else
    (.ok st.accessToken, st, [])

end QwakAuth

namespace QwakAuth.Coalesce

/-- The singleflight key guarding the network-performing closure of
`renewToken`. -/
def renewKey : String := "token-get"

/-- The singleflight key guarding `lazyRenewToken`'s background trigger
(whose body calls `renewToken`, hence also funnels through `renewKey`). -/
def lazyRenewKey : String := "token-lazy-renew"

/-- Whether a task is a synchronous renewal (a `renewToken` call on a
caller's expired path) or a background one (a `lazyRenewToken` spawn). -/
inductive TaskKind where
  | sync
  | lazy
deriving DecidableEq

/-- Control point of a renewal task.  A `sync` task goes
`notStarted → (getLeader | getJoined)`; a `lazy` task first passes the
`lazyRenewKey` gate (`lazyLeader` / `lazyJoined`) and its leader then
calls `renewToken`, reaching the same `renewKey` gate.  The `renewKey`
leader performs the network call (`getLeader → inNetwork → done`); joiners
wait in `getJoined` and receive the leader's result. -/
inductive Phase where
  | notStarted
  | lazyLeader
  | lazyJoined
  | getLeader
  | inNetwork
  | getJoined
  | done
deriving DecidableEq

/-- Global state of the interleaving model: the singleflight table (which
task currently leads each key), each task's control point and each task's
observed renewal result. -/
structure AState where
  gates : String → Option Nat
  phase : Nat → Phase
  result : Nat → Option (Except String String)

/-- Initial state: no call in flight anywhere. -/
def initA : AState :=
  { gates := fun _ => none, phase := fun _ => Phase.notStarted, result := fun _ => none }

/-- Semantics of the leader of `renewKey` completing its network call with
result `r`: the gate empties and every task waiting on that call (the
`getJoined` ones) observes the identical result `r`, as does the leader. -/
def finishRenewal (s : AState) (t : Nat) (r : Except String String) : AState :=
  { gates := Function.update s.gates renewKey none,
    phase := fun u => if u = t then Phase.done
      else if s.phase u = Phase.getJoined then Phase.done
      else s.phase u,
    result := fun u =>
      if u = t ∨ s.phase u = Phase.getJoined then some r else s.result u }

/-- Semantics of a finished `lazyRenewKey` leader releasing its gate:
tasks that had joined the lazy gate complete with it. -/
def releaseLazy (s : AState) (t : Nat) : AState :=
  { gates := Function.update s.gates lazyRenewKey none,
    phase := fun u => if s.phase u = Phase.lazyJoined then Phase.done else s.phase u,
    result := s.result }

/-- Interleaved small steps of concurrent renewal tasks under singleflight
semantics (`Do(key, f)` runs `f` if no call with `key` is in flight,
otherwise joins the in-flight call).  Synchronous renewals enter at the
`renewKey` gate; background renewals enter at the `lazyRenewKey` gate and
their leader then enters the `renewKey` gate, mirroring `lazyRenewToken`
calling `renewToken`.  Only the `renewKey` leader ever performs the
network call. -/
inductive Step (kinds : Nat → TaskKind) : AState → AState → Prop where
  | syncAcquire (s : AState) (t : Nat) (hk : kinds t = TaskKind.sync)
      (hp : s.phase t = Phase.notStarted) (hg : s.gates renewKey = none) :
      Step kinds s { s with gates := Function.update s.gates renewKey (some t),
                            phase := Function.update s.phase t Phase.getLeader }
  | syncJoin (s : AState) (t l : Nat) (hk : kinds t = TaskKind.sync)
      (hp : s.phase t = Phase.notStarted) (hg : s.gates renewKey = some l) :
      Step kinds s { s with phase := Function.update s.phase t Phase.getJoined }
  | lazyAcquire (s : AState) (t : Nat) (hk : kinds t = TaskKind.lazy)
      (hp : s.phase t = Phase.notStarted) (hg : s.gates lazyRenewKey = none) :
      Step kinds s { s with gates := Function.update s.gates lazyRenewKey (some t),
                            phase := Function.update s.phase t Phase.lazyLeader }
  | lazyJoin (s : AState) (t l : Nat) (hk : kinds t = TaskKind.lazy)
      (hp : s.phase t = Phase.notStarted) (hg : s.gates lazyRenewKey = some l) :
      Step kinds s { s with phase := Function.update s.phase t Phase.lazyJoined }
  | innerAcquire (s : AState) (t : Nat) (hp : s.phase t = Phase.lazyLeader)
      (hg : s.gates renewKey = none) :
      Step kinds s { s with gates := Function.update s.gates renewKey (some t),
                            phase := Function.update s.phase t Phase.getLeader }
  | innerJoin (s : AState) (t l : Nat) (hp : s.phase t = Phase.lazyLeader)
      (hg : s.gates renewKey = some l) :
      Step kinds s { s with phase := Function.update s.phase t Phase.getJoined }
  | netStart (s : AState) (t : Nat) (hp : s.phase t = Phase.getLeader) :
      Step kinds s { s with phase := Function.update s.phase t Phase.inNetwork }
  | netFinish (s : AState) (t : Nat) (r : Except String String)
      (hp : s.phase t = Phase.inNetwork) :
      Step kinds s (finishRenewal s t r)
  | lazyRelease (s : AState) (t : Nat) (hk : kinds t = TaskKind.lazy)
      (hp : s.phase t = Phase.done) (hg : s.gates lazyRenewKey = some t) :
      Step kinds s (releaseLazy s t)

/-- States reachable from the idle state by interleaved renewal steps. -/
def Reachable (kinds : Nat → TaskKind) (s : AState) : Prop :=
  Relation.ReflTransGen (Step kinds) initA s

/-- A task preparing or performing the authentication network call holds
the `renewKey` singleflight gate. -/
def GateInv (s : AState) : Prop :=
  ∀ t, (s.phase t = Phase.getLeader ∨ s.phase t = Phase.inNetwork) →
    s.gates renewKey = some t

/-- Task kinds of the witness scenario: task 0 is a synchronous renewal,
every other task a background one. -/
def kindsW : Nat → TaskKind := fun t => if t = 0 then TaskKind.sync else TaskKind.lazy

/-- Witness state: task 0 has acquired the `renewKey` gate. -/
def w1 : AState :=
  { initA with gates := Function.update initA.gates renewKey (some 0),
               phase := Function.update initA.phase 0 Phase.getLeader }

/-- Witness state: task 0 is performing the authentication network call. -/
def w2 : AState :=
  { w1 with phase := Function.update w1.phase 0 Phase.inNetwork }

/-- Witness state: background task 1 has acquired the `lazyRenewKey` gate
while task 0's network call is in flight. -/
def w3 : AState :=
  { w2 with gates := Function.update w2.gates lazyRenewKey (some 1),
            phase := Function.update w2.phase 1 Phase.lazyLeader }

/-- Witness state: background task 1's inner `renewToken` call joined the
in-flight `renewKey` call instead of issuing a second network request. -/
def w4 : AState :=
  { w3 with phase := Function.update w3.phase 1 Phase.getJoined }

end QwakAuth.Coalesce

/-- Modelled from the spec: the Backoff Policy contract of section 4.1,
`delay = floor(intervalBaseUnit * clamp(configuredFactor,1,3)^attempt)^2`
milliseconds, stated for comparison with the source's
`getBackoffForAttempt`. -/
def specBackoffDelay (intervalBaseUnit : Int) (configuredFactor : ℚ) (attempt : Nat) : Int :=
  let effectiveFactor := min 3 (max 1 configuredFactor)
  let floored : Int := ((intervalBaseUnit : ℚ) * effectiveFactor ^ attempt).floor
  floored * floored

namespace QwakHttp

theorem maxAttemptsNat_pos (r : RetryPolicy) : 1 ≤ r.maxAttemptsNat := by
  unfold RetryPolicy.maxAttemptsNat RetryPolicy.getMaxAttempts
  split_ifs <;> omega

theorem getMaxAttempts_clamp (r : RetryPolicy) :
    r.getMaxAttempts = min 5 (max 1 r.MaxAttempts) := by
  unfold RetryPolicy.getMaxAttempts
  split_ifs <;> omega

theorem classify_of_retryable (r : AttemptResult) (h : Retryable r) :
    classify r = some (failMsg r) := by
  cases r with
  | ok b s =>
    unfold Retryable classify at *
    simp only [attemptErr] at *
    split_ifs at * with hs
    · simp [failMsg, attemptErr, attemptStatus]
    · simp at h
  | failed m s => simp [classify, failMsg, attemptErr]

theorem classify_of_not_retryable (r : AttemptResult) (h : ¬ Retryable r) :
    classify r = none := not_not.mp h

theorem countAttempts_append (a b : List Event) :
    countAttempts (a ++ b) = countAttempts a + countAttempts b := by
  simp [countAttempts, List.filter_append]

theorem countAttempts_failBlocks (net : Nat → AttemptResult) (policy : RetryPolicy) :
    ∀ c k, countAttempts ((List.range' k c).flatMap (failBlock net policy)) = c := by
  intro c
  induction c with
  | zero => intro k; simp [countAttempts]
  | succ c ih =>
    intro k
    rw [List.range'_succ, List.flatMap_cons, countAttempts_append, ih]
    simp [countAttempts, failBlock]
    omega

theorem mem_failBlocks_attempt (net : Nat → AttemptResult) (policy : RetryPolicy)
    (c k i : Nat) (r : AttemptResult)
    (h : Event.attempt i r ∈ (List.range' k c).flatMap (failBlock net policy)) :
    k ≤ i ∧ i < k + c := by
  rcases List.mem_flatMap.mp h with ⟨j, hj, hmem⟩
  have hj' := List.mem_range'_1.mp hj
  simp only [failBlock, List.mem_cons, List.mem_singleton] at hmem
  rcases hmem with h1 | h1 | h1
  · cases h1; omega
  · cases h1
  · cases h1

/-- If the loop guard's second conjunct is false (a previous attempt
succeeded and we are past attempt 0), the loop exits at once. -/
theorem runFrom_stop (net : Nat → AttemptResult) (cancelAt : Option Nat)
    (policy : RetryPolicy) (cnt k : Nat) (s : LoopState)
    (he : s.lastErr = none) (hk : k ≠ 0) :
    runFrom net cancelAt policy cnt k s = s := by
  cases cnt with
  | zero => rfl
  | succ c =>
    unfold runFrom
    rw [if_neg]
    rintro ⟨-, h0 | hne⟩
    · exact hk h0
    · exact hne he

/-- Characterization of the loop when every attempt outcome is a retryable
failure and the context never fires: all remaining iterations run, each
appending its tagged message and its attempt/backoff events, and the loop
ends holding the last attempt's body, status and failure. -/
theorem runFrom_allFail (net : Nat → AttemptResult) (policy : RetryPolicy)
    (hr : ∀ i, Retryable (net i)) :
    ∀ cnt k s, k + cnt = policy.maxAttemptsNat → (k = 0 ∨ s.lastErr ≠ none) → 0 < cnt →
    runFrom net none policy cnt k s =
      { body := attemptBody (net (k + cnt - 1)),
        lastHttpCode := attemptStatus (net (k + cnt - 1)),
        errs := s.errs ++ (List.range' k cnt).map (fun j => attemptTag j (failMsg (net j))),
        lastErr := some (failMsg (net (k + cnt - 1))),
        trace := s.trace ++ (List.range' k cnt).flatMap (failBlock net policy) } := by
  intro cnt
  induction cnt with
  | zero => intro k s _ _ h0; omega
  | succ c ih =>
    intro k s hn hd _
    unfold runFrom
    rw [if_pos ⟨by omega, hd⟩]
    have hcl := classify_of_retryable (net k) (hr k)
    simp only [loopIter, ctxCancelled, Bool.false_eq_true, if_false, hcl]
    cases c with
    | zero =>
      simp only [runFrom, List.range'_succ, List.range'_zero, List.map_cons,
        List.map_nil, List.flatMap_cons, List.flatMap_nil, failBlock]
      simp [List.append_assoc]
    | succ c' =>
      rw [ih (k + 1) _ (by omega) (by simp) (by omega)]
      have hidx : k + 1 + (c' + 1) - 1 = k + (c' + 1 + 1) - 1 := by omega
      rw [hidx]
      simp only [List.range'_succ, List.map_cons, List.flatMap_cons, failBlock]
      simp [List.append_assoc]

/-- Characterization of the loop when attempts before `m` are retryable
failures, attempt `m` is non-retryable and the context never fires: the
loop performs attempts `k..m` and exits right after attempt `m`, holding
its body and status with a nil error. -/
theorem runFrom_firstStop (net : Nat → AttemptResult) (policy : RetryPolicy) (m : Nat)
    (hr : ∀ j, j < m → Retryable (net j)) (hm : ¬ Retryable (net m)) :
    ∀ cnt k s, k + cnt = policy.maxAttemptsNat → (k = 0 ∨ s.lastErr ≠ none) →
      k ≤ m → m < policy.maxAttemptsNat →
    runFrom net none policy cnt k s =
      { body := attemptBody (net m),
        lastHttpCode := attemptStatus (net m),
        errs := s.errs ++ (List.range' k (m - k)).map (fun j => attemptTag j (failMsg (net j))),
        lastErr := none,
        trace := s.trace ++ (List.range' k (m - k)).flatMap (failBlock net policy) ++
          [Event.attempt m (net m)] } := by
  intro cnt
  induction cnt with
  | zero => intro k s hn _ hkm hmn; omega
  | succ c ih =>
    intro k s hn hd hkm hmn
    unfold runFrom
    rw [if_pos ⟨by omega, hd⟩]
    rcases Nat.eq_or_lt_of_le hkm with hkm' | hkm'
    · subst hkm'
      have hcl := classify_of_not_retryable (net k) hm
      simp only [loopIter, ctxCancelled, Bool.false_eq_true, if_false, hcl]
      rw [runFrom_stop _ _ _ _ _ _ rfl (by omega)]
      simp
    · have hcl := classify_of_retryable (net k) (hr k hkm')
      simp only [loopIter, ctxCancelled, Bool.false_eq_true, if_false, hcl]
      rw [ih (k + 1) _ (by omega) (by simp) (by omega) hmn]
      have hrange : m - k = (m - (k + 1)) + 1 := by omega
      rw [hrange, List.range'_succ]
      simp [failBlock, List.append_assoc]

theorem goodTrace_runFrom (net : Nat → AttemptResult) (cancelAt : Option Nat)
    (policy : RetryPolicy) :
    ∀ cnt k s, GoodTrace cancelAt s.trace →
      GoodTrace cancelAt (runFrom net cancelAt policy cnt k s).trace := by
  intro cnt
  induction cnt with
  | zero => intro k s h; exact h
  | succ c ih =>
    intro k s h
    unfold runFrom
    split_ifs with hcond
    · unfold loopIter
      split_ifs with hcanc
      · refine ⟨fun i r hmem => ?_, fun i d fl hmem => ?_⟩
        · rcases List.mem_append.mp hmem with hmem | hmem
          · exact h.1 i r hmem
          · simp at hmem
        · rcases List.mem_append.mp hmem with hmem | hmem
          · exact h.2 i d fl hmem
          · simp at hmem
      · cases hcl : classify (net k) with
        | none =>
          simp only [hcl]
          apply ih
          refine ⟨fun i r hmem => ?_, fun i d fl hmem => ?_⟩
          · rcases List.mem_append.mp hmem with hmem | hmem
            · exact h.1 i r hmem
            · simp only [List.mem_singleton] at hmem
              cases hmem
              simpa using hcanc
          · rcases List.mem_append.mp hmem with hmem | hmem
            · exact h.2 i d fl hmem
            · simp at hmem
        | some msg =>
          simp only [hcl]
          apply ih
          refine ⟨fun i r hmem => ?_, fun i d fl hmem => ?_⟩
          · rcases List.mem_append.mp hmem with hmem | hmem
            · rcases List.mem_append.mp hmem with hmem | hmem
              · exact h.1 i r hmem
              · simp only [List.mem_singleton] at hmem
                cases hmem
                simpa using hcanc
            · simp at hmem
          · rcases List.mem_append.mp hmem with hmem | hmem
            · rcases List.mem_append.mp hmem with hmem | hmem
              · exact h.2 i d fl hmem
              · simp at hmem
            · simp only [List.mem_singleton] at hmem
              cases hmem
              rfl
    · exact h

theorem waitsAfterFailure_runFrom (net : Nat → AttemptResult) (policy : RetryPolicy) :
    ∀ cnt k s, WaitsAfterFailure policy s.trace →
      WaitsAfterFailure policy (runFrom net none policy cnt k s).trace := by
  intro cnt
  induction cnt with
  | zero => intro k s h; exact h
  | succ c ih =>
    intro k s h
    unfold runFrom
    split_ifs with hcond
    · unfold loopIter
      simp only [ctxCancelled, Bool.false_eq_true, if_false]
      cases hcl : classify (net k) with
      | none =>
        apply ih
        intro j r hmem hret
        rcases List.mem_append.mp hmem with hmem | hmem
        · exact List.mem_append.mpr (Or.inl (h j r hmem hret))
        · simp only [List.mem_singleton] at hmem
          cases hmem
          exact absurd hcl hret
      | some msg =>
        apply ih
        intro j r hmem hret
        rcases List.mem_append.mp hmem with hmem | hmem
        · rcases List.mem_append.mp hmem with hmem | hmem
          · have := h j r hmem hret
            exact List.mem_append.mpr (Or.inl (List.mem_append.mpr (Or.inl this)))
          · simp only [List.mem_singleton] at hmem
            cases hmem
            refine List.mem_append.mpr (Or.inr ?_)
            simp [ctxCancelled]
        · simp at hmem
    · exact h

end QwakHttp

namespace QwakAuth.Coalesce

theorem renewKey_ne_lazyRenewKey : renewKey ≠ lazyRenewKey := by decide

theorem gateInv_init : GateInv initA := by
  intro t ht
  rcases ht with h | h <;> cases h

theorem gateInv_step (kinds : Nat → TaskKind) (s s' : AState)
    (hI : GateInv s) (hs : Step kinds s s') : GateInv s' := by
  cases hs with
  | syncAcquire t hk hp hg =>
    intro u hu
    simp only [Function.update_apply] at hu ⊢
    by_cases hut : u = t
    · simp [hut]
    · simp only [hut, if_false] at hu
      have h1 := hI u hu
      simp [hg] at h1
  | syncJoin t l hk hp hg =>
    intro u hu
    simp only [Function.update_apply] at hu
    by_cases hut : u = t
    · simp [hut] at hu
    · simp only [hut, if_false] at hu
      exact hI u hu
  | lazyAcquire t hk hp hg =>
    intro u hu
    simp only [Function.update_apply] at hu ⊢
    by_cases hut : u = t
    · simp [hut] at hu
    · simp only [hut, if_false] at hu
      rw [if_neg renewKey_ne_lazyRenewKey]
      exact hI u hu
  | lazyJoin t l hk hp hg =>
    intro u hu
    simp only [Function.update_apply] at hu
    by_cases hut : u = t
    · simp [hut] at hu
    · simp only [hut, if_false] at hu
      exact hI u hu
  | innerAcquire t hp hg =>
    intro u hu
    simp only [Function.update_apply] at hu ⊢
    by_cases hut : u = t
    · simp [hut]
    · simp only [hut, if_false] at hu
      have h1 := hI u hu
      simp [hg] at h1
  | innerJoin t l hp hg =>
    intro u hu
    simp only [Function.update_apply] at hu
    by_cases hut : u = t
    · simp [hut] at hu
    · simp only [hut, if_false] at hu
      exact hI u hu
  | netStart t hp =>
    intro u hu
    simp only [Function.update_apply] at hu
    by_cases hut : u = t
    · subst hut
      exact hI u (Or.inl hp)
    · simp only [hut, if_false] at hu
      exact hI u hu
  | netFinish t r hp =>
    intro u hu
    simp only [finishRenewal, Function.update_apply] at hu
    by_cases hut : u = t
    · simp [hut] at hu
    · simp only [hut, if_false] at hu
      by_cases hj : s.phase u = Phase.getJoined
      · simp [hj] at hu
      · simp only [hj, if_false] at hu
        have h1 := hI u hu
        have h2 := hI t (Or.inr hp)
        rw [h1] at h2
        simp at h2
        exact absurd h2 hut
  | lazyRelease t hk hp hg =>
    intro u hu
    simp only [releaseLazy, Function.update_apply] at hu ⊢
    by_cases hj : s.phase u = Phase.lazyJoined
    · simp [hj] at hu
    · simp only [hj, if_false] at hu
      rw [if_neg renewKey_ne_lazyRenewKey]
      exact hI u hu

theorem gateInv_reachable (kinds : Nat → TaskKind) (s : AState)
    (h : Reachable kinds s) : GateInv s := by
  induction h with
  | refl => exact gateInv_init
  | tail hr hs ih => exact gateInv_step kinds _ _ ih hs

theorem reachW4 : Reachable kindsW w4 := by
  have s1 : Step kindsW initA w1 := Step.syncAcquire initA 0 rfl rfl rfl
  have s2 : Step kindsW w1 w2 := Step.netStart w1 0 rfl
  have s3 : Step kindsW w2 w3 := Step.lazyAcquire w2 1 rfl rfl rfl
  have s4 : Step kindsW w3 w4 := Step.innerJoin w3 1 0 rfl rfl
  exact Relation.ReflTransGen.tail (Relation.ReflTransGen.tail
    (Relation.ReflTransGen.tail (Relation.ReflTransGen.single s1) s2) s3) s4

end QwakAuth.Coalesce

section ClaimTheorems

open QwakHttp QwakAuth

/-- C2 counterexample: at attempt 0 of the authentication policy
(interval 200ms, factor 1.5) the spec formula yields
`floor(200 * 1.5^0)^2 = 40000` while the source's `getBackoffForAttempt`
yields `1`: the source never multiplies by `IntervalMs`. -/
theorem backoff_interval_counterexample :
    RetryPolicy.getBackoffForAttempt ⟨5, 200, 3/2⟩ 0 = 1 ∧
    specBackoffDelay 200 (3/2) 0 = 40000 ∧ (1 : Int) ≠ 40000 := by
  refine ⟨?_, ?_, by decide⟩
  · norm_num [RetryPolicy.getBackoffForAttempt, Rat.floor_def']
  · norm_num [specBackoffDelay, Rat.floor_def']

/-- C2 (amended): the executor's backoff delay for attempt `n` is
`floor(clamp(factor,1,3)^n)^2` milliseconds — `IntervalMs` does not enter
the formula — and attempt 0 always yields exactly 1ms; the function is a
pure function of the policy and the attempt index. -/
theorem backoff_formula (r : RetryPolicy) (attempt : Nat) :
    r.getBackoffForAttempt attempt =
      ((min 3 (max 1 r.ExponentialBackoffFactor)) ^ attempt).floor ^ 2 ∧
    r.getBackoffForAttempt 0 = 1 := by
  constructor
  · simp only [RetryPolicy.getBackoffForAttempt]
    have hclamp :
        (if (if r.ExponentialBackoffFactor < 1 then 1 else r.ExponentialBackoffFactor) > 3
          then (3 : ℚ)
          else if r.ExponentialBackoffFactor < 1 then 1 else r.ExponentialBackoffFactor) =
        min 3 (max 1 r.ExponentialBackoffFactor) := by
      rw [min_def, max_def]
      split_ifs <;> first | rfl | linarith
    rw [hclamp, pow_two]
  · simp only [RetryPolicy.getBackoffForAttempt, pow_zero]
    decide

/-- C1 counterexample: a cached credential whose literal server expiry is
one nanosecond beyond the staleness threshold (`expiresAt - now =
stalenessTokenPeriod + 1 > stalenessTokenPeriod`) does not take the
fresh path: because `getExpiredIn` first subtracts
`TokenExpirationBuffer`, `GetToken` returns the cached token but triggers
a background renewal network call. -/
theorem getToken_fresh_counterexample :
    stalenessTokenPeriod + 1 - 0 > stalenessTokenPeriod ∧
    (GetToken ⟨"cached", some (stalenessTokenPeriod + 1)⟩ 0 (Except.error "unused")).2.2 =
      [NetworkCall.backgroundRenew] ∧
    [NetworkCall.backgroundRenew] ≠ ([] : List NetworkCall) := by
  refine ⟨by decide, by decide, by decide⟩

/-- C1 (amended): for every cached credential whose buffered time to
expiry `expiresAt - now - TokenExpirationBuffer` is at least the
staleness threshold, `GetToken` returns the cached token, leaves the
cache untouched and triggers no renewal network call of either kind. -/
theorem getToken_fresh (st : TokenWrapper) (e now : Int) (res : Except String AuthResponse)
    (he : st.expiredAt = some e)
    (hfresh : stalenessTokenPeriod ≤ e - now - TokenExpirationBuffer) :
    GetToken st now res = (Except.ok st.accessToken, st, []) := by
  have hb : TokenExpirationBuffer = 1800000000000 := by decide
  have hs : stalenessTokenPeriod = 7200000000000 := by decide
  rw [hb, hs] at hfresh
  simp only [GetToken, getExpiredIn, he, hb, hs]
  split_ifs with h1 h2 h3 <;> first | rfl | omega

/-- Witness for `getToken_fresh` at a concrete fresh credential. -/
theorem getToken_fresh_witness :
    GetToken ⟨"tok", some 9000000000001⟩ 0 (Except.error "unused") =
      (Except.ok "tok", ⟨"tok", some 9000000000001⟩, []) :=
  getToken_fresh ⟨"tok", some 9000000000001⟩ 9000000000001 0 (Except.error "unused")
    rfl (by decide)

/-- C7: the expiry decision is computed from the server expiry minus the
fixed buffer (`getExpiredIn = max 0 (expiresAt - now -
TokenExpirationBuffer)`); in particular a token is classified as expired
(`getExpiredIn = 0`) as soon as `expiresAt - now ≤ TokenExpirationBuffer`,
strictly before the server-side expiry; a never-fetched credential (no
recorded expiry) always yields `getExpiredIn = 0` and `GetToken` takes
the synchronous-renewal path. -/
theorem expiry_buffer (tok : TokenWrapper) (e now : Int) (res : Except String AuthResponse) :
    (tok.expiredAt = some e →
      getExpiredIn tok now = max 0 (e - now - TokenExpirationBuffer)) ∧
    (tok.expiredAt = some e → 0 < e - now → e - now ≤ TokenExpirationBuffer →
      getExpiredIn tok now = 0) ∧
    (tok.expiredAt = none →
      getExpiredIn tok now = 0 ∧ (GetToken tok now res).2.2 = [NetworkCall.syncRenew]) := by
  refine ⟨fun he => ?_, fun he h1 h2 => ?_, fun he => ⟨?_, ?_⟩⟩
  · simp only [getExpiredIn, he]
    rw [max_def]
    split_ifs <;> omega
  · simp only [getExpiredIn, he]
    have hb : TokenExpirationBuffer = 1800000000000 := by decide
    rw [hb] at h2 ⊢
    split_ifs <;> omega
  · simp [getExpiredIn, he]
  · have hz : getExpiredIn tok now = 0 := by simp [getExpiredIn, he]
    simp only [GetToken, hz]
    rw [if_pos (by omega)]
    cases res <;> simp [renewToken]

/-- Witness for `expiry_buffer` at a never-fetched credential. -/
theorem expiry_buffer_witness :
    getExpiredIn ⟨"t", none⟩ 5 = 0 ∧
    (GetToken ⟨"t", none⟩ 5 (Except.ok ⟨"new", 10⟩)).2.2 = [NetworkCall.syncRenew] :=
  (expiry_buffer ⟨"t", none⟩ 0 5 (Except.ok ⟨"new", 10⟩)).2.2 rfl

/-- C6: `doGetTokenRequest` fails exactly on a transport/HTTP-layer error,
a non-200 status (401 included) or a malformed body, and a failed renewal
leaves the cached credential exactly as it was, while a successful one
replaces it wholesale by the response-derived credential. -/
theorem renewal_preserves_cache (st : TokenWrapper) (body : String) (status : Nat)
    (err : Option String) (decoded : Option AuthResponse) :
    (err ≠ none ∨ status ≠ 200 ∨ decoded = none →
      ∃ e, doGetTokenRequest body status err decoded = Except.error e) ∧
    (∀ e, doGetTokenRequest body status err decoded = Except.error e →
      (renewToken st (doGetTokenRequest body status err decoded)).1 = st) ∧
    (∀ r, doGetTokenRequest body status err decoded = Except.ok r →
      (renewToken st (doGetTokenRequest body status err decoded)).1 = renewedWrapper r) := by
  refine ⟨fun h => ?_, fun e he => ?_, fun r hr => ?_⟩
  · cases err with
    | some e => exact ⟨e, rfl⟩
    | none =>
      simp only [doGetTokenRequest]
      by_cases h1 : status = 401
      · rw [if_pos h1]; exact ⟨_, rfl⟩
      · rw [if_neg h1]
        by_cases h2 : status = 200
        · rw [if_neg (fun hne => hne h2)]
          rcases h with h | h | h
          · simp at h
          · exact absurd h2 h
          · rw [h]; exact ⟨_, rfl⟩
        · rw [if_pos h2]; exact ⟨_, rfl⟩
  · rw [he]; rfl
  · rw [hr]; rfl

/-- Witness for `renewal_preserves_cache`: a 503 renewal outcome leaves
the previously cached (even expired) credential untouched. -/
theorem renewal_preserves_cache_witness :
    (renewToken ⟨"old", some 5⟩
      (doGetTokenRequest "b" 503 none (some ⟨"x", 1⟩))).1 = ⟨"old", some 5⟩ :=
  (renewal_preserves_cache ⟨"old", some 5⟩ "b" 503 none (some ⟨"x", 1⟩)).2.1
    "authentication failed. failed with code 503. response: b" rfl

/-- C3: when every attempt yields HTTP 503 and the context never fires,
`DoRequestWithRetry` performs exactly `clamp(MaxAttempts,1,5)` network
attempts and returns the last received status and body together with an
error aggregating one `Attempt #i`-tagged failure message per attempt. -/
theorem retry_exhaustion (net : Nat → AttemptResult) (policy : RetryPolicy)
    (bodies : Nat → String)
    (hnet : ∀ i, net i = AttemptResult.ok (bodies i) 503) :
    countAttempts (DoRequestWithRetry net none policy).trace = policy.maxAttemptsNat ∧
    (policy.maxAttemptsNat : Int) = min 5 (max 1 policy.MaxAttempts) ∧
    (DoRequestWithRetry net none policy).statusCode = 503 ∧
    (DoRequestWithRetry net none policy).body = bodies (policy.maxAttemptsNat - 1) ∧
    (DoRequestWithRetry net none policy).error =
      some ("failed to perform reqesut: " ++
        joinErrors ((List.range policy.maxAttemptsNat).map
          (fun i => attemptTag i (statusErrMsg 503)))) := by
  have hr : ∀ i, Retryable (net i) := by
    intro i; rw [hnet i]
    simp [Retryable, classify, attemptErr, attemptStatus]
  have hrun := runFrom_allFail net policy hr policy.maxAttemptsNat 0 initState
    (by omega) (Or.inl rfl) (by have := maxAttemptsNat_pos policy; omega)
  have hmap : (List.range' 0 policy.maxAttemptsNat).map
      (fun j => attemptTag j (failMsg (net j))) =
      (List.range policy.maxAttemptsNat).map (fun i => attemptTag i (statusErrMsg 503)) := by
    rw [List.range_eq_range']
    apply List.map_congr_left
    intro j _
    rw [hnet j]
    rfl
  have hnn : 0 ≤ policy.getMaxAttempts := by
    unfold RetryPolicy.getMaxAttempts; split_ifs <;> omega
  refine ⟨?_, ?_, ?_, ?_, ?_⟩
  · simp only [DoRequestWithRetry, hrun]
    simp [initState, countAttempts_failBlocks]
  · rw [RetryPolicy.maxAttemptsNat, Int.toNat_of_nonneg hnn, getMaxAttempts_clamp]
  · simp only [DoRequestWithRetry, hrun]
    rw [hnet (0 + policy.maxAttemptsNat - 1)]
    rfl
  · simp only [DoRequestWithRetry, hrun]
    rw [hnet (0 + policy.maxAttemptsNat - 1)]
    simp [attemptBody]
  · simp only [DoRequestWithRetry, hrun]
    simp [initState, hmap]

/-- Witness for `retry_exhaustion`: a 5-attempt policy against an
endpoint that always answers 503 yields exactly 5 attempts. -/
theorem retry_exhaustion_witness :
    countAttempts (DoRequestWithRetry (fun _ => AttemptResult.ok "B" 503) none
      ⟨5, 200, 2⟩).trace = 5 :=
  (retry_exhaustion (fun _ => AttemptResult.ok "B" 503) ⟨5, 200, 2⟩ (fun _ => "B")
    (fun _ => rfl)).1

/-- C4: only a transport-level failure or a status `≥ 500` is retryable;
an attempt completing with any other status ends the loop immediately:
the run consists of the failing attempts before it plus that single final
attempt, whose status is returned as the final outcome. -/
theorem non_retryable_stops (net : Nat → AttemptResult) (policy : RetryPolicy) (m : Nat)
    (hm : m < policy.maxAttemptsNat)
    (hfail : ∀ j, j < m → Retryable (net j))
    (hterm : ¬ Retryable (net m)) :
    (∀ r, Retryable r ↔ (attemptErr r ≠ none ∨ 500 ≤ attemptStatus r)) ∧
    countAttempts (DoRequestWithRetry net none policy).trace = m + 1 ∧
    (∀ i r, Event.attempt i r ∈ (DoRequestWithRetry net none policy).trace → i ≤ m) ∧
    (DoRequestWithRetry net none policy).statusCode = attemptStatus (net m) := by
  have hrun := runFrom_firstStop net policy m hfail hterm policy.maxAttemptsNat 0 initState
    (by omega) (Or.inl rfl) (Nat.zero_le m) hm
  refine ⟨?_, ?_, ?_, ?_⟩
  · intro r
    cases r with
    | ok b s =>
      by_cases h : 500 ≤ s <;>
        simp [Retryable, classify, attemptErr, attemptStatus, h]
    | failed msg s => simp [Retryable, classify, attemptErr]
  · simp only [DoRequestWithRetry, hrun]
    simp only [initState, List.nil_append, Nat.sub_zero]
    rw [countAttempts_append, countAttempts_failBlocks]
    simp [countAttempts]
  · intro i r hmem
    simp only [DoRequestWithRetry, hrun] at hmem
    simp only [initState, List.nil_append] at hmem
    rcases List.mem_append.mp hmem with hmem | hmem
    · have := mem_failBlocks_attempt net policy (m - 0) 0 i r hmem
      omega
    · simp only [List.mem_singleton] at hmem
      cases hmem
      exact Nat.le_refl m
  · simp only [DoRequestWithRetry, hrun]

/-- Witness for `non_retryable_stops`: a transport failure then a 200
response gives exactly two attempts. -/
theorem non_retryable_stops_witness :
    countAttempts (DoRequestWithRetry
      (fun i => if i = 0 then AttemptResult.failed "boom" 0 else AttemptResult.ok "done" 200)
      none ⟨3, 100, 1⟩).trace = 1 + 1 :=
  (non_retryable_stops
    (fun i => if i = 0 then AttemptResult.failed "boom" 0 else AttemptResult.ok "done" 200)
    ⟨3, 100, 1⟩ 1 (by decide)
    (fun j hj => by
      interval_cases j
      · exact (by decide : Retryable (AttemptResult.failed "boom" 0)))
    (by decide)).2.1

/-- C10: an attempt that completes without a transport error and with a
status below 500 (401 and 404 included) makes `DoRequestWithRetry` return
exactly that response's body and status with a nil error: the executor
never converts a non-5xx status into an error. -/
theorem non5xx_nil_error (net : Nat → AttemptResult) (policy : RetryPolicy) (m : Nat)
    (b : String) (st : Nat)
    (hm : m < policy.maxAttemptsNat)
    (hfail : ∀ j, j < m → Retryable (net j))
    (hok : net m = AttemptResult.ok b st) (hst : st < 500) :
    (DoRequestWithRetry net none policy).body = b ∧
    (DoRequestWithRetry net none policy).statusCode = st ∧
    (DoRequestWithRetry net none policy).error = none := by
  have hterm : ¬ Retryable (net m) := by
    rw [hok]
    simp [Retryable, classify, attemptErr, attemptStatus, Nat.not_le.mpr hst]
  have hrun := runFrom_firstStop net policy m hfail hterm policy.maxAttemptsNat 0 initState
    (by omega) (Or.inl rfl) (Nat.zero_le m) hm
  refine ⟨?_, ?_, ?_⟩
  · simp only [DoRequestWithRetry, hrun]
    rw [hok]
    rfl
  · simp only [DoRequestWithRetry, hrun]
    rw [hok]
    rfl
  · simp only [DoRequestWithRetry, hrun]

/-- Witness for `non5xx_nil_error`: a 401 on the first call is returned
at once with a nil executor error. -/
theorem non5xx_nil_error_witness :
    (DoRequestWithRetry (fun _ => AttemptResult.ok "unauthorized" 401) none
      ⟨5, 200, 2⟩).body = "unauthorized" ∧
    (DoRequestWithRetry (fun _ => AttemptResult.ok "unauthorized" 401) none
      ⟨5, 200, 2⟩).statusCode = 401 ∧
    (DoRequestWithRetry (fun _ => AttemptResult.ok "unauthorized" 401) none
      ⟨5, 200, 2⟩).error = none :=
  non5xx_nil_error (fun _ => AttemptResult.ok "unauthorized" 401) ⟨5, 200, 2⟩ 0
    "unauthorized" 401 (by decide) (fun j hj => absurd hj (by omega)) rfl (by decide)

/-- C8 counterexample: with a one-attempt policy and a 503 response, the
trace of the run contains a backoff wait after the final (only) attempt's
retryable failure — the loop performs the wait even when no attempt
remains. -/
theorem final_attempt_waits_counterexample :
    (⟨1, 200, 1⟩ : RetryPolicy).maxAttemptsNat = 1 ∧
    (DoRequestWithRetry (fun _ => AttemptResult.ok "" 503) none ⟨1, 200, 1⟩).trace =
      [Event.attempt 0 (AttemptResult.ok "" 503), Event.backoffWait 0 1 false] := by
  exact ⟨by decide, by decide⟩

/-- C8 (amended): after every retryable failure — the final attempt's
included — the executor performs the backoff wait computed for that
attempt; it is only a non-retryable outcome or a cancellation abort that
skips the wait. -/
theorem backoff_after_every_failure (net : Nat → AttemptResult) (policy : RetryPolicy)
    (k : Nat) (r : AttemptResult)
    (hmem : Event.attempt k r ∈ (DoRequestWithRetry net none policy).trace)
    (hret : Retryable r) :
    Event.backoffWait k (policy.getBackoffForAttempt k) false ∈
      (DoRequestWithRetry net none policy).trace := by
  have hw := waitsAfterFailure_runFrom net policy policy.maxAttemptsNat 0 initState
    (by intro j rr hmem0 _; simp [initState] at hmem0)
  exact hw k r hmem hret

set_option maxRecDepth 10000 in
/-- Witness for `backoff_after_every_failure`: the second (final) failing
attempt of a two-attempt run is followed by its 4ms backoff wait. -/
theorem backoff_after_every_failure_witness :
    Event.backoffWait 1 4 false ∈
      (DoRequestWithRetry (fun _ => AttemptResult.ok "x" 503) none ⟨2, 200, 2⟩).trace :=
  backoff_after_every_failure (fun _ => AttemptResult.ok "x" 503) ⟨2, 200, 2⟩ 1
    (AttemptResult.ok "x" 503) (by decide) (by decide)

/-- C5: once the caller's context is done, no further network attempt is
performed: every attempt in the trace started strictly before the
cancellation point, a backoff wait in progress when the signal fires is
marked interrupted, and a context already done at the start aborts with
zero attempts and the cancellation error. -/
theorem cancellation_respected (net : Nat → AttemptResult) (cancelAt : Option Nat)
    (policy : RetryPolicy) :
    (∀ i r, Event.attempt i r ∈ (DoRequestWithRetry net cancelAt policy).trace →
      ctxCancelled cancelAt (2 * i) = false) ∧
    (∀ i d fl, Event.backoffWait i d fl ∈ (DoRequestWithRetry net cancelAt policy).trace →
      fl = ctxCancelled cancelAt (2 * i + 1)) ∧
    (cancelAt = some 0 →
      countAttempts (DoRequestWithRetry net cancelAt policy).trace = 0 ∧
      (DoRequestWithRetry net cancelAt policy).error =
        some ("failed to perform reqesut: " ++ joinErrors [discardTag 0 ctxErrMsg])) := by
  have hg := goodTrace_runFrom net cancelAt policy policy.maxAttemptsNat 0 initState
    ⟨by intro i r hmem; simp [initState] at hmem,
     by intro i d fl hmem; simp [initState] at hmem⟩
  refine ⟨fun i r hmem => hg.1 i r hmem, fun i d fl hmem => hg.2 i d fl hmem, ?_⟩
  intro hc
  subst hc
  obtain ⟨c, hc'⟩ : ∃ c, policy.maxAttemptsNat = c + 1 :=
    ⟨policy.maxAttemptsNat - 1, by have := maxAttemptsNat_pos policy; omega⟩
  have hpos := maxAttemptsNat_pos policy
  simp only [DoRequestWithRetry]
  rw [hc']
  unfold runFrom
  rw [if_pos ⟨by omega, Or.inl rfl⟩]
  simp only [loopIter, ctxCancelled]
  norm_num
  simp [initState, countAttempts]

/-- C9: in every state reachable by interleaved renewal tasks, at most one
task holds the `renewKey` gate as leader or is performing the
authentication network call — hence at most one renewal network call of
any kind (synchronous or background) is in flight at a time — and when
the in-flight leader completes, every task that joined the gate observes
the leader's identical result. -/
theorem renewal_coalescing (kinds : Nat → QwakAuth.Coalesce.TaskKind)
    (s : QwakAuth.Coalesce.AState) (h : QwakAuth.Coalesce.Reachable kinds s) :
    (∀ t u, (s.phase t = QwakAuth.Coalesce.Phase.getLeader ∨
             s.phase t = QwakAuth.Coalesce.Phase.inNetwork) →
            (s.phase u = QwakAuth.Coalesce.Phase.getLeader ∨
             s.phase u = QwakAuth.Coalesce.Phase.inNetwork) → t = u) ∧
    (∀ t r u, s.phase t = QwakAuth.Coalesce.Phase.inNetwork →
      s.phase u = QwakAuth.Coalesce.Phase.getJoined →
      (QwakAuth.Coalesce.finishRenewal s t r).result u = some r ∧
      (QwakAuth.Coalesce.finishRenewal s t r).result t = some r) := by
  have hI := QwakAuth.Coalesce.gateInv_reachable kinds s h
  constructor
  · intro t u ht hu
    have h1 := hI t ht
    have h2 := hI u hu
    rw [h1] at h2
    exact Option.some.inj h2
  · intro t r u ht hu
    constructor
    · simp [QwakAuth.Coalesce.finishRenewal, hu]
    · simp [QwakAuth.Coalesce.finishRenewal]

/-- Witness for `renewal_coalescing`: in the concrete reachable state
`w4` (a synchronous renewal mid-network-call, a background renewal joined
onto it), finishing the call hands both tasks the same result. -/
theorem renewal_coalescing_witness :
    (QwakAuth.Coalesce.finishRenewal QwakAuth.Coalesce.w4 0
        (Except.ok "tok")).result 1 = some (Except.ok "tok") ∧
    (QwakAuth.Coalesce.finishRenewal QwakAuth.Coalesce.w4 0
        (Except.ok "tok")).result 0 = some (Except.ok "tok") :=
  (renewal_coalescing QwakAuth.Coalesce.kindsW QwakAuth.Coalesce.w4
    QwakAuth.Coalesce.reachW4).2 0 (Except.ok "tok") 1 rfl rfl

/-- Witness for `cancellation_respected`: with the context done from the
start, the run performs zero attempts and returns the cancellation
aggregate error. -/
theorem cancellation_respected_witness :
    countAttempts (DoRequestWithRetry (fun _ => AttemptResult.ok "b" 503) (some 0)
      ⟨5, 200, 2⟩).trace = 0 ∧
    (DoRequestWithRetry (fun _ => AttemptResult.ok "b" 503) (some 0) ⟨5, 200, 2⟩).error =
      some ("failed to perform reqesut: all attemptes has been failed:[" ++
        "Attempt #0 discarded: context canceled]") :=
  (cancellation_respected (fun _ => AttemptResult.ok "b" 503) (some 0) ⟨5, 200, 2⟩).2.2 rfl

end ClaimTheorems
